import Mathlib

/-!
Shallow embedding of the structural type-checking engine in
`src/public/python_difficulties_in_runtime_type_checking/type_check.py`.

The Python module monkey-patches `typing.ForwardRef.__init__` so that every
forward-reference construction walks the call stack and records, in the
process-global dictionary `forward_frames`, the frame whose scope the
reference should later be resolved in.  The recursive function `check_type`
then decides whether a runtime value conforms to a type expression,
resolving forward references through `forward_frames`.

Modelling choices:
  - Python frames become `Frame` records holding a source filename and two
    association tables (`f_locals`, `f_globals`) from names to bindings.
    A table binding is either a type expression or the Python value `None`
    (`PyBinding.pyNone`); the distinction matters because
    `frame.f_globals.get(name)` returns `None` both for an absent name and
    for a name bound to `None`, and `check_type` then falls through to the
    local table.
  - `forward_frames` becomes an association list from tokens (`id(self)`)
    to frames; assignment prepends and lookup takes the first hit, which
    matches dictionary overwrite semantics for the fresh tokens `id` mints.
  - Recursion in `check_type` is fuelled: each recursive call consumes one
    unit, mirroring the stack depth budget of the host interpreter, and an
    exhausted budget yields the distinguished result `CheckResult.fuelOut`
    (the mathematical content of `RecursionError`).  A raised exception is
    `CheckResult.raised`: a missing registry entry raises
    `unknownForwardReference` (the `KeyError` from `forward_frames[id(type)]`),
    a name absent from both tables raises `unresolvableName` (the `KeyError`
    from `frame.f_locals[name]`), and a name that resolves to the Python
    value `None` raises `typeError` (the `TypeError` that
    `isinstance(value, None)` produces once `check_type` recurses on `None`).
-/

namespace TypeCheck

/-- Runtime kind of a bare class usable as a primitive type annotation:
`int`, `float`, `str`, `bool`, `NoneType`, or a user-defined class. -/
inductive PrimKind where
  | int
  | float
  | str
  | bool
  | noneType
  | namedClass (cls : String)
deriving DecidableEq

/-- Type expressions: the closed algebra consumed by `check_type`.
`typeAlias` models a `TypeAliasType` with its `__value__`; `forwardRef`
models `typing.ForwardRef` with its identity token `id(self)` and its
`__forward_arg__` name. -/
inductive TypeExpr where
  | primitive (k : PrimKind)
  | union (members : List TypeExpr)
  | typeAlias (nm : String) (value : TypeExpr)
  | forwardRef (tok : Nat) (forward_arg : String)
  | listOf (elem : TypeExpr)
  | dictOf (key : TypeExpr) (val : TypeExpr)

/-- Runtime values checked by `check_type`: the JSON-ish data of the repo
plus instances of user-defined classes. -/
inductive Value where
  | int (n : Int)
  | float
  | str (s : String)
  | bool (b : Bool)
  | null
  | list (elems : List Value)
  | dict (items : List (Value × Value))
  | inst (cls : String)

/-- What a name in a frame table can be bound to: the Python value `None`,
or an object denoting a type expression. -/
inductive PyBinding where
  | pyNone
  | ty (t : TypeExpr)

/-- A captured stack frame: source filename of its code object, plus its
local and global name tables. -/
structure Frame where
  co_filename : String
  f_locals : List (String × PyBinding)
  f_globals : List (String × PyBinding)

/-- The `forward_frames` dictionary: token (`id(self)`) to captured frame. -/
abbrev Registry := List (Nat × Frame)

/-- Dictionary lookup in `forward_frames`. -/
def lookupReg : Registry → Nat → Option Frame
  | [], _ => Option.none
  | (t, f) :: rest, tok => if t = tok then some f else lookupReg rest tok

/-- Dictionary lookup in a frame table (`.get` when the caller handles
`Option.none` itself, `[...]` when absence is an error at the call site). -/
def lookupTable : List (String × PyBinding) → String → Option PyBinding
  | [], _ => Option.none
  | (k, b) :: rest, nm => if k = nm then some b else lookupTable rest nm

/-- Models `isinstance(value, cls)` for the bare classes of the model.  In
CPython `bool` is a subclass of `int`, so a boolean value satisfies
`isinstance(v, int)`; no other cross-kind instance relation holds here. -/
def isinst : Value → PrimKind → Bool
  | .int _, .int => true
  | .bool _, .int => true
  | .bool _, .bool => true
  | .float, .float => true
  | .str _, .str => true
  | .null, .noneType => true
  | .inst c, .namedClass d => c == d
  | _, _ => false

/-- Models `isinstance(value, list)`. -/
def isinstance_list : Value → Bool
  | .list _ => true
  | _ => false

/-- Models `isinstance(value, dict)`. -/
def isinstance_dict : Value → Bool
  | .dict _ => true
  | _ => false

/-- Exceptions that can escape `check_type`. -/
inductive CheckError where
  | unknownForwardReference (tok : Nat)
  | unresolvableName (nm : String)
  | typeError
deriving DecidableEq

/-- Outcome of a fuelled `check_type` call: a boolean, a raised exception,
or an exhausted recursion budget. -/
inductive CheckResult where
  | ok (b : Bool)
  | raised (e : CheckError)
  | fuelOut
deriving DecidableEq

/-- Is the outcome a raised exception? -/
def CheckResult.isRaised : CheckResult → Bool
  | .raised _ => true
  | _ => false

/-- Models `any(...)` over an already-computed list of generator outcomes:
stop at the first `True`, propagate the first exception, otherwise `False`.
Because every outcome is pure, computing the list eagerly and folding with
short-circuit yields the same result as the lazy generator. -/
def anyShort : List CheckResult → CheckResult
  | [] => .ok false
  | .ok true :: _ => .ok true
  | .ok false :: rest => anyShort rest
  | r :: _ => r

/-- Models `all(...)` over a list of generator outcomes: stop at the first
`False`, propagate the first exception, otherwise `True`. -/
def allShort : List CheckResult → CheckResult
  | [] => .ok true
  | .ok true :: rest => allShort rest
  | .ok false :: _ => .ok false
  | r :: _ => r

/-- Models the Python `and` between two check outcomes, as used in the dict
case: if the first is `True` the result is the second, a `False` first
operand short-circuits, and an exception in the first operand propagates. -/
def pyAnd : CheckResult → CheckResult → CheckResult
  | .ok true, b => b
  | .ok false, _ => .ok false
  | r, _ => r

/-- One unfolding of `check_type`, with `recur` standing for the recursive
call (one fuel unit lower).  Mirrors the dispatch of the source:
Union / UnionType first, then `TypeAliasType`, then `ForwardRef`, then
`list[...]`, then `dict[...]`, then the final `isinstance(value, type)`. -/
def check_type_step (reg : Registry) (recur : Value → TypeExpr → CheckResult)
    (value : Value) : TypeExpr → CheckResult
  | .union members => anyShort (members.map fun m => recur value m)
  | .typeAlias _ v => recur value v
  | .forwardRef tok nm =>
    match lookupReg reg tok with
    | Option.none => .raised (.unknownForwardReference tok)
    | some frame =>
      match lookupTable frame.f_globals nm with
      | some (.ty t) => recur value t
      | _ =>
        match lookupTable frame.f_locals nm with
        | some (.ty t) => recur value t
        | some .pyNone => .raised .typeError
        | Option.none => .raised (.unresolvableName nm)
  | .listOf elemTy =>
    match value with
    | .list xs => allShort (xs.map fun x => recur x elemTy)
    | _ => .ok false
  | .dictOf keyTy valTy =>
    match value with
    | .dict items =>
      allShort (items.map fun kv => pyAnd (recur kv.1 keyTy) (recur kv.2 valTy))
    | _ => .ok false
  | .primitive k => .ok (isinst value k)

/-- The fuelled checker: `check_type reg fuel value ty` runs the source
function with a recursion budget of `fuel` calls. -/
def check_type (reg : Registry) : Nat → Value → TypeExpr → CheckResult
  | 0, _, _ => .fuelOut
  | n + 1, value, ty => check_type_step reg (check_type reg n) value ty

/-- Invoking `check_type` from a call site whose frame is `caller`.  The
body of the source function reads only its two arguments and the
process-global `forward_frames`; it never inspects the frame of its caller,
so the call-site scope cannot influence the outcome.  The extra parameter
records the scope that a call site would have had available. -/
def check_type_from (caller : Frame) (reg : Registry) (fuel : Nat)
    (value : Value) (ty : TypeExpr) : CheckResult :=
  check_type reg fuel value ty

/-- The `while` loop of the patched `__init__`: starting from the immediate
caller, skip every frame whose filename equals `fname`, and return the
first frame past them (`Option.none` when the stack is exhausted). -/
def skipSame (fname : String) : List Frame → Option Frame
  | [] => Option.none
  | f :: rest => if f.co_filename = fname then skipSame fname rest else some f

/-- The scope-capture walk of the patched `__init__` over the call stack
(innermost first, head = immediate caller of the constructor): take the
filename of the immediate caller as the filename of the construction
machinery and skip every frame carrying it.  An empty stack models the
`assert cur is not None` failing, which cannot happen in the host. -/
def scope_walk : List Frame → Option Frame
  | [] => Option.none
  | cur :: rest => skipSame cur.co_filename (cur :: rest)

/-- The patched `ForwardRef.__init__`: record the frame found by the walk
under the fresh token `id(self)`; when the walk exhausts the stack, record
nothing. -/
def init (tok : Nat) (stack : List Frame) (reg : Registry) : Registry :=
  match scope_walk stack with
  | some f => (tok, f) :: reg
  | Option.none => reg

/-- Number of registry entries stored under a token. -/
def countReg : Registry → Nat → Nat
  | [], _ => 0
  | (t, _) :: rest, tok => (if t = tok then 1 else 0) + countReg rest tok

/-- Follows the wording of the spec for the scope-capture walk, for
comparison with `scope_walk`: skip exactly the frames whose source location
lies inside the construction library and stop at the first frame that
belongs to user code. -/
def spec_scope_walk (libraryFiles : List String) : List Frame → Option Frame
  | [] => Option.none
  | f :: rest =>
    if f.co_filename ∈ libraryFiles then spec_scope_walk libraryFiles rest
    else some f

/-- The type expression a frame resolves a name to, when the resolution
path of `check_type` (global table first, then local table, with a `None`
binding treated as absent from the global table) ends at a type. -/
def frame_ty (f : Frame) (nm : String) : Option TypeExpr :=
  match lookupTable f.f_globals nm with
  | some (.ty t) => some t
  | _ =>
    match lookupTable f.f_locals nm with
    | some (.ty t) => some t
    | _ => Option.none

mutual

/-- Every forward reference occurring in the expression is registered and
its name resolves, along the resolution path of `check_type`, to a type
expression in the captured frame. -/
def refsResolved (reg : Registry) : TypeExpr → Bool
  | .primitive _ => true
  | .union ms => refsResolvedList reg ms
  | .typeAlias _ v => refsResolved reg v
  | .forwardRef tok nm =>
    match lookupReg reg tok with
    | some f => (frame_ty f nm).isSome
    | Option.none => false
  | .listOf e => refsResolved reg e
  | .dictOf k v => refsResolved reg k && refsResolved reg v

/-- `refsResolved` over every member of a union. -/
def refsResolvedList (reg : Registry) : List TypeExpr → Bool
  | [] => true
  | t :: ts => refsResolved reg t && refsResolvedList reg ts

end

/-- A table binding is well formed when any type expression it denotes has
all its forward references registered and resolvable. -/
def bindingWF (reg : Registry) : PyBinding → Bool
  | .pyNone => true
  | .ty t => refsResolved reg t

/-- All bindings of a frame table are well formed. -/
def tableWF (reg : Registry) : List (String × PyBinding) → Bool
  | [] => true
  | (_, b) :: rest => bindingWF reg b && tableWF reg rest

/-- Both tables of a captured frame hold only well-formed bindings. -/
def frameWF (reg : Registry) (f : Frame) : Bool :=
  tableWF reg f.f_globals && tableWF reg f.f_locals

/-- All frames in a registry slice are well formed with respect to `reg`. -/
def entriesWF (reg : Registry) : Registry → Bool
  | [] => true
  | (_, f) :: rest => frameWF reg f && entriesWF reg rest

/-- A registry is well formed when every captured frame it stores binds
names only to well-formed objects: any chain of forward references starting
from such a registry keeps resolving. -/
def regWF (reg : Registry) : Bool :=
  entriesWF reg reg

/-! ## Helper lemmas -/

theorem check_type_succ (reg : Registry) (n : Nat) (v : Value) (t : TypeExpr) :
    check_type reg (n + 1) v t = check_type_step reg (check_type reg n) v t :=
  rfl

theorem anyShort_no_raised :
    ∀ l : List CheckResult, (∀ r ∈ l, r.isRaised = false) →
      (anyShort l).isRaised = false := by
  intro l
  induction l with
  | nil => intro _; rfl
  | cons r rest ih =>
    intro h
    have hr := h r (List.mem_cons_self r rest)
    have hrest : ∀ x ∈ rest, x.isRaised = false := fun x hx =>
      h x (List.mem_cons_of_mem r hx)
    cases r with
    | ok b =>
      cases b with
      | true => rfl
      | false => exact ih hrest
    | raised e => exact absurd hr (by simp [CheckResult.isRaised])
    | fuelOut => rfl

theorem allShort_no_raised :
    ∀ l : List CheckResult, (∀ r ∈ l, r.isRaised = false) →
      (allShort l).isRaised = false := by
  intro l
  induction l with
  | nil => intro _; rfl
  | cons r rest ih =>
    intro h
    have hr := h r (List.mem_cons_self r rest)
    have hrest : ∀ x ∈ rest, x.isRaised = false := fun x hx =>
      h x (List.mem_cons_of_mem r hx)
    cases r with
    | ok b =>
      cases b with
      | true => exact ih hrest
      | false => rfl
    | raised e => exact absurd hr (by simp [CheckResult.isRaised])
    | fuelOut => rfl

theorem pyAnd_no_raised {a b : CheckResult} (ha : a.isRaised = false)
    (hb : b.isRaised = false) : (pyAnd a b).isRaised = false := by
  cases a with
  | ok x =>
    cases x with
    | true => exact hb
    | false => rfl
  | raised e => exact absurd ha (by simp [CheckResult.isRaised])
  | fuelOut => rfl

theorem allShort_map_ok_true_iff {α : Type} (f : α → CheckResult) :
    ∀ xs : List α,
      (allShort (xs.map f) = .ok true ↔ ∀ x ∈ xs, f x = .ok true) := by
  intro xs
  induction xs with
  | nil => simp [allShort]
  | cons x xs ih =>
    simp only [List.map_cons]
    cases hfx : f x with
    | ok b =>
      cases b with
      | true => simp [allShort, ih, hfx]
      | false => simp [allShort, hfx]
    | raised e => simp [allShort, hfx]
    | fuelOut => simp [allShort, hfx]

theorem anyShort_map_ok_true_iff {α : Type} (f : α → CheckResult) :
    ∀ xs : List α, (∀ x ∈ xs, ∃ b, f x = .ok b) →
      (anyShort (xs.map f) = .ok true ↔ ∃ x ∈ xs, f x = .ok true) := by
  intro xs
  induction xs with
  | nil =>
    intro _
    simp [anyShort]
  | cons x xs ih =>
    intro h
    obtain ⟨b, hb⟩ := h x (List.mem_cons_self x xs)
    have hrest : ∀ y ∈ xs, ∃ c, f y = .ok c := fun y hy =>
      h y (List.mem_cons_of_mem x hy)
    simp only [List.map_cons]
    cases b with
    | true =>
      rw [hb]
      constructor
      · intro _
        exact ⟨x, List.mem_cons_self x xs, hb⟩
      · intro _
        rfl
    | false =>
      rw [hb]
      rw [show anyShort (CheckResult.ok false :: List.map f xs) =
        anyShort (List.map f xs) from rfl, ih hrest]
      constructor
      · rintro ⟨y, hy, hfy⟩
        exact ⟨y, List.mem_cons_of_mem x hy, hfy⟩
      · rintro ⟨y, hy, hfy⟩
        rcases List.mem_cons.mp hy with rfl | hy2
        · rw [hb] at hfy
          exact absurd hfy (by decide)
        · exact ⟨y, hy2, hfy⟩

theorem refsResolvedList_mem {reg : Registry} :
    ∀ {ms : List TypeExpr}, refsResolvedList reg ms = true →
      ∀ {m : TypeExpr}, m ∈ ms → refsResolved reg m = true := by
  intro ms
  induction ms with
  | nil => intro _ m hm; cases hm
  | cons t ts ih =>
    intro h m hm
    rw [refsResolvedList] at h
    rw [Bool.and_eq_true] at h
    rcases List.mem_cons.mp hm with h1 | h2
    · exact h1 ▸ h.1
    · exact ih h.2 h2

theorem lookupReg_mem {reg : Registry} :
    ∀ {tok : Nat} {f : Frame}, lookupReg reg tok = some f → (tok, f) ∈ reg := by
  induction reg with
  | nil => intro tok f h; cases h
  | cons p rest ih =>
    intro tok f h
    rw [show p = (p.1, p.2) from rfl, lookupReg] at h
    by_cases he : p.1 = tok
    · rw [if_pos he] at h
      cases h
      exact he ▸ List.mem_cons_self _ _
    · rw [if_neg he] at h
      exact List.mem_cons_of_mem _ (ih h)

theorem entriesWF_mem {reg : Registry} :
    ∀ {l : Registry}, entriesWF reg l = true →
      ∀ {tok : Nat} {f : Frame}, (tok, f) ∈ l → frameWF reg f = true := by
  intro l
  induction l with
  | nil => intro _ tok f hm; cases hm
  | cons p rest ih =>
    intro h tok f hm
    rw [show p = (p.1, p.2) from rfl, entriesWF, Bool.and_eq_true] at h
    rcases List.mem_cons.mp hm with h1 | h2
    · have : p.2 = f := congrArg Prod.snd h1.symm
      exact this ▸ h.1
    · exact ih h.2 h2

theorem tableWF_lookup {reg : Registry} :
    ∀ {tbl : List (String × PyBinding)}, tableWF reg tbl = true →
      ∀ {nm : String} {b : PyBinding}, lookupTable tbl nm = some b →
        bindingWF reg b = true := by
  intro tbl
  induction tbl with
  | nil => intro _ nm b h; cases h
  | cons p rest ih =>
    intro h nm b hl
    rw [show p = (p.1, p.2) from rfl, tableWF, Bool.and_eq_true] at h
    rw [show p = (p.1, p.2) from rfl, lookupTable] at hl
    by_cases he : p.1 = nm
    · rw [if_pos he] at hl
      cases hl
      exact h.1
    · rw [if_neg he] at hl
      exact ih h.2 hl

theorem regWF_lookupReg {reg : Registry} (hreg : regWF reg = true)
    {tok : Nat} {f : Frame} (h : lookupReg reg tok = some f) :
    frameWF reg f = true :=
  entriesWF_mem hreg (lookupReg_mem h)

/-! ## Unfolding lemmas for the fuelled checker -/

theorem check_type_zero (reg : Registry) (v : Value) (t : TypeExpr) :
    check_type reg 0 v t = .fuelOut := rfl

theorem check_type_union (reg : Registry) (n : Nat) (v : Value)
    (ms : List TypeExpr) :
    check_type reg (n + 1) v (.union ms) =
      anyShort (ms.map fun m => check_type reg n v m) := rfl

theorem check_type_typeAlias (reg : Registry) (n : Nat) (v : Value)
    (nm : String) (tgt : TypeExpr) :
    check_type reg (n + 1) v (.typeAlias nm tgt) = check_type reg n v tgt := rfl

theorem check_type_primitive (reg : Registry) (n : Nat) (v : Value)
    (k : PrimKind) :
    check_type reg (n + 1) v (.primitive k) = .ok (isinst v k) := rfl

theorem check_type_listOf_list (reg : Registry) (n : Nat) (xs : List Value)
    (e : TypeExpr) :
    check_type reg (n + 1) (.list xs) (.listOf e) =
      allShort (xs.map fun x => check_type reg n x e) := rfl

theorem check_type_listOf_not_list (reg : Registry) (n : Nat) (v : Value)
    (e : TypeExpr) (h : isinstance_list v = false) :
    check_type reg (n + 1) v (.listOf e) = .ok false := by
  cases v <;> first
    | rfl
    | exact absurd h (by simp [isinstance_list])

theorem check_type_dictOf_dict (reg : Registry) (n : Nat)
    (items : List (Value × Value)) (kt vt : TypeExpr) :
    check_type reg (n + 1) (.dict items) (.dictOf kt vt) =
      allShort (items.map fun kv =>
        pyAnd (check_type reg n kv.1 kt) (check_type reg n kv.2 vt)) := rfl

theorem check_type_dictOf_not_dict (reg : Registry) (n : Nat) (v : Value)
    (kt vt : TypeExpr) (h : isinstance_dict v = false) :
    check_type reg (n + 1) v (.dictOf kt vt) = .ok false := by
  cases v <;> first
    | rfl
    | exact absurd h (by simp [isinstance_dict])

theorem check_type_fr_unregistered (reg : Registry) (n : Nat) (v : Value)
    (tok : Nat) (nm : String) (h : lookupReg reg tok = Option.none) :
    check_type reg (n + 1) v (.forwardRef tok nm) =
      .raised (.unknownForwardReference tok) := by
  rw [check_type_succ]
  simp only [check_type_step, h]

theorem check_type_fr_global_ty (reg : Registry) (n : Nat) (v : Value)
    (tok : Nat) (nm : String) {f : Frame} {t : TypeExpr}
    (h : lookupReg reg tok = some f)
    (hg : lookupTable f.f_globals nm = some (.ty t)) :
    check_type reg (n + 1) v (.forwardRef tok nm) = check_type reg n v t := by
  rw [check_type_succ]
  simp only [check_type_step, h, hg]

theorem check_type_fr_fallback (reg : Registry) (n : Nat) (v : Value)
    (tok : Nat) (nm : String) {f : Frame}
    (h : lookupReg reg tok = some f)
    (hg : lookupTable f.f_globals nm = Option.none ∨
      lookupTable f.f_globals nm = some .pyNone) :
    check_type reg (n + 1) v (.forwardRef tok nm) =
      match lookupTable f.f_locals nm with
      | some (.ty t) => check_type reg n v t
      | some .pyNone => .raised .typeError
      | Option.none => .raised (.unresolvableName nm) := by
  rw [check_type_succ]
  rcases hg with hg | hg <;> simp only [check_type_step, h, hg]

/-- When the registry is well formed and every forward reference of the
type expression resolves, `check_type` never raises: it either returns a
boolean or runs out of fuel. -/
theorem check_type_no_raise {reg : Registry} (hreg : regWF reg = true) :
    ∀ (n : Nat) (t : TypeExpr) (v : Value), refsResolved reg t = true →
      (check_type reg n v t).isRaised = false := by
  intro n
  induction n with
  | zero => intro t v _; rfl
  | succ n ih =>
    intro t v ht
    cases t with
    | primitive k => rfl
    | typeAlias nm tgt =>
      rw [check_type_typeAlias]
      simp only [refsResolved] at ht
      exact ih tgt v ht
    | union ms =>
      rw [check_type_union]
      simp only [refsResolved] at ht
      apply anyShort_no_raised
      intro r hr
      rw [List.mem_map] at hr
      obtain ⟨m, hm, rfl⟩ := hr
      exact ih m v (refsResolvedList_mem ht hm)
    | listOf e =>
      simp only [refsResolved] at ht
      cases v with
      | list xs =>
        rw [check_type_listOf_list]
        apply allShort_no_raised
        intro r hr
        rw [List.mem_map] at hr
        obtain ⟨x, hx, rfl⟩ := hr
        exact ih e x ht
      | _ => rfl
    | dictOf kt vt =>
      simp only [refsResolved, Bool.and_eq_true] at ht
      cases v with
      | dict items =>
        rw [check_type_dictOf_dict]
        apply allShort_no_raised
        intro r hr
        rw [List.mem_map] at hr
        obtain ⟨kv, hkv, rfl⟩ := hr
        exact pyAnd_no_raised (ih kt kv.1 ht.1) (ih vt kv.2 ht.2)
      | _ => rfl
    | forwardRef tok nm =>
      simp only [refsResolved] at ht
      cases hL : lookupReg reg tok with
      | none => rw [hL] at ht; exact absurd ht (by simp)
      | some f =>
        rw [hL] at ht
        have hfw := regWF_lookupReg hreg hL
        rw [frameWF, Bool.and_eq_true] at hfw
        cases hg : lookupTable f.f_globals nm with
        | some b =>
          cases b with
          | ty t =>
            rw [check_type_fr_global_ty reg n v tok nm hL hg]
            have hb := tableWF_lookup hfw.1 hg
            rw [bindingWF] at hb
            exact ih t v hb
          | pyNone =>
            rw [check_type_fr_fallback reg n v tok nm hL (Or.inr hg)]
            simp only [frame_ty, hg] at ht
            cases hl : lookupTable f.f_locals nm with
            | some b2 =>
              cases b2 with
              | ty t =>
                simp only [hl]
                have hb := tableWF_lookup hfw.2 hl
                rw [bindingWF] at hb
                exact ih t v hb
              | pyNone => rw [hl] at ht; simp at ht
            | none => rw [hl] at ht; simp at ht
        | none =>
          rw [check_type_fr_fallback reg n v tok nm hL (Or.inl hg)]
          simp only [frame_ty, hg] at ht
          cases hl : lookupTable f.f_locals nm with
          | some b2 =>
            cases b2 with
            | ty t =>
              simp only [hl]
              have hb := tableWF_lookup hfw.2 hl
              rw [bindingWF] at hb
              exact ih t v hb
            | pyNone => rw [hl] at ht; simp at ht
          | none => rw [hl] at ht; simp at ht

/-- Left-to-right `skipSame` skips a whole block of frames that all carry
the filename being skipped. -/
theorem skipSame_all {c : String} :
    ∀ (fs l : List Frame), (∀ f ∈ fs, f.co_filename = c) →
      skipSame c (fs ++ l) = skipSame c l := by
  intro fs
  induction fs with
  | nil => intro l _; rfl
  | cons f fs ih =>
    intro l h
    rw [List.cons_append, skipSame,
      if_pos (h f (List.mem_cons_self f fs)),
      ih l fun x hx => h x (List.mem_cons_of_mem f hx)]

/-! ## Claims -/

/-- C1: the outcome of `check_type` on a forward reference depends only on
the scope captured in `forward_frames` when the reference was constructed,
never on the scope of the call site invoking the check: calls from any two
calling scopes agree, and with two references of the same name captured in
different scopes each resolves in its own captured scope regardless of the
calling scope. -/
theorem c1_check_scope_bound :
    (∀ (caller₁ caller₂ : Frame) (reg : Registry) (fuel : Nat) (v : Value)
        (tok : Nat) (nm : String),
      check_type_from caller₁ reg fuel v (.forwardRef tok nm) =
        check_type_from caller₂ reg fuel v (.forwardRef tok nm)) ∧
    (∀ caller₁ caller₂ : Frame,
      check_type_from caller₁
          [(1, ⟨"a.py", [], [("X", .ty (.primitive .int))]⟩),
           (2, ⟨"b.py", [], [("X", .ty (.primitive .str))]⟩)]
          2 (.int 3) (.forwardRef 1 "X") = .ok true ∧
      check_type_from caller₂
          [(1, ⟨"a.py", [], [("X", .ty (.primitive .int))]⟩),
           (2, ⟨"b.py", [], [("X", .ty (.primitive .str))]⟩)]
          2 (.int 3) (.forwardRef 2 "X") = .ok false) :=
  ⟨fun _ _ _ _ _ _ _ => rfl, fun _ _ => ⟨rfl, rfl⟩⟩

/-- C2 counterexample: with the name `x` bound to `str` in the local table
and to `int` in the global table of the captured frame, checking the string
value follows the global binding and yields false, while the claimed
local-first shadowing order would follow the local binding and yield true. -/
theorem c2_counterexample :
    check_type [(0, ⟨"a.py", [("x", .ty (.primitive .str))],
        [("x", .ty (.primitive .int))]⟩)] 2 (.str "hello")
        (.forwardRef 0 "x") = .ok false ∧
    ¬(check_type [(0, ⟨"a.py", [("x", .ty (.primitive .str))],
        [("x", .ty (.primitive .int))]⟩)] 2 (.str "hello")
        (.forwardRef 0 "x") = .ok true) := by
  refine ⟨rfl, fun h => ?_⟩
  rw [show check_type [(0, ⟨"a.py", [("x", .ty (.primitive .str))],
      [("x", .ty (.primitive .int))]⟩)] 2 (.str "hello")
      (.forwardRef 0 "x") = .ok false from rfl] at h
  exact Bool.noConfusion (CheckResult.ok.inj h)

/-- C2 amended: resolution of a registered forward reference looks the name
up first in the global table of the captured scope; only when that lookup
yields no binding does it consult the local table; a name absent from both
raises `unresolvableName`; a resolved type expression is checked
recursively. -/
theorem c2_global_first_resolution (reg : Registry) (tok : Nat) (f : Frame)
    (nm : String) (v : Value) (n : Nat) (hreg : lookupReg reg tok = some f) :
    (∀ t, lookupTable f.f_globals nm = some (.ty t) →
      check_type reg (n + 1) v (.forwardRef tok nm) = check_type reg n v t) ∧
    (lookupTable f.f_globals nm = Option.none →
      (∀ t, lookupTable f.f_locals nm = some (.ty t) →
        check_type reg (n + 1) v (.forwardRef tok nm) =
          check_type reg n v t) ∧
      (lookupTable f.f_locals nm = Option.none →
        check_type reg (n + 1) v (.forwardRef tok nm) =
          .raised (.unresolvableName nm))) := by
  refine ⟨fun t hg => check_type_fr_global_ty reg n v tok nm hreg hg,
    fun hg => ⟨fun t hl => ?_, fun hl => ?_⟩⟩
  · rw [check_type_fr_fallback reg n v tok nm hreg (Or.inl hg)]
    simp only [hl]
  · rw [check_type_fr_fallback reg n v tok nm hreg (Or.inl hg)]
    simp only [hl]

theorem c2_global_first_resolution_witness :
    check_type [(0, ⟨"a.py", [], [("x", .ty (.primitive .int))]⟩)] 2 (.int 5)
        (.forwardRef 0 "x") =
      check_type [(0, ⟨"a.py", [], [("x", .ty (.primitive .int))]⟩)] 1 (.int 5)
        (.primitive .int) :=
  (c2_global_first_resolution
      [(0, ⟨"a.py", [], [("x", .ty (.primitive .int))]⟩)] 0
      ⟨"a.py", [], [("x", .ty (.primitive .int))]⟩ "x" (.int 5) 1 rfl).1
    (.primitive .int) rfl

/-- C3 counterexample: for the boolean value true, checking against the
integer primitive returns true, not false, because `bool` is a subclass of
`int` in the host and the final dispatch is `isinstance(value, type)`. -/
theorem c3_counterexample :
    check_type [] 1 (.bool true) (.primitive .int) = .ok true ∧
    ¬(check_type [] 1 (.bool true) (.primitive .int) = .ok false) := by
  decide

/-- C3 amended: boolean and integer are distinct value kinds, but primitive
matching inherits the host subclass relation `bool <: int`: true matches
`Primitive(Boolean)` and also matches `Primitive(Integer)` by widening,
while an integer value does not match `Primitive(Boolean)`. -/
theorem c3_bool_int_matching (reg : Registry) (n : Nat) :
    check_type reg (n + 1) (.bool true) (.primitive .bool) = .ok true ∧
    check_type reg (n + 1) (.bool true) (.primitive .int) = .ok true ∧
    check_type reg (n + 1) (.int 1) (.primitive .bool) = .ok false :=
  ⟨rfl, rfl, rfl⟩

/-- C4 counterexample: a `ForwardRef` constructed directly by user code at
the top of a one-frame stack registers nothing: the walk takes the filename
of the immediate caller as the filename of the construction library, skips
every frame, and exhausts the stack, so the registry keeps no entry for the
token and a later check raises `unknownForwardReference`. -/
theorem c4_counterexample :
    ¬(countReg (init 0 [⟨"script.py", [], []⟩] []) 0 = 1) ∧
    check_type (init 0 [⟨"script.py", [], []⟩] []) 1 .null
      (.forwardRef 0 "J") = .raised (.unknownForwardReference 0) := by
  constructor
  · rw [show countReg (init 0 [⟨"script.py", [], []⟩] []) 0 = 0 from rfl]
    decide
  · rfl

/-- C4 amended: construction registers exactly one entry keyed by the fresh
token precisely when the stack walk finds a frame whose filename differs
from that of the immediate caller; when the walk exhausts the stack the
registry is left unchanged, and such a reference can later miss. -/
theorem c4_registration (tok : Nat) (stack : List Frame) (reg : Registry) :
    (∀ f, scope_walk stack = some f →
      lookupReg (init tok stack reg) tok = some f ∧
      (countReg reg tok = 0 → countReg (init tok stack reg) tok = 1)) ∧
    (scope_walk stack = Option.none → init tok stack reg = reg) := by
  constructor
  · intro f hw
    constructor
    · rw [init, hw]
      simp [lookupReg]
    · intro h0
      rw [init, hw]
      simp [countReg, h0]
  · intro hw
    rw [init, hw]

theorem c4_registration_witness :
    lookupReg (init 5 [⟨"typing.py", [], []⟩, ⟨"user.py", [], []⟩] []) 5 =
        some ⟨"user.py", [], []⟩ ∧
    countReg (init 5 [⟨"typing.py", [], []⟩, ⟨"user.py", [], []⟩] []) 5 = 1 ∧
    init 6 [⟨"script.py", [], []⟩] [] = [] :=
  ⟨((c4_registration 5 [⟨"typing.py", [], []⟩, ⟨"user.py", [], []⟩] []).1
      ⟨"user.py", [], []⟩ rfl).1,
   ((c4_registration 5 [⟨"typing.py", [], []⟩, ⟨"user.py", [], []⟩] []).1
      ⟨"user.py", [], []⟩ rfl).2 rfl,
   (c4_registration 6 [⟨"script.py", [], []⟩] []).2 rfl⟩

/-- C5 counterexample: when user code constructs the reference directly, the
walk of the code skips the user frame itself, because its filename equals
the filename of the immediate caller, and captures nothing, while the walk
described by the spec, which skips only frames of the construction library,
captures that first user frame. -/
theorem c5_counterexample :
    scope_walk [⟨"script.py", [("x", .ty (.primitive .int))], []⟩] =
      Option.none ∧
    spec_scope_walk ["typing.py"]
        [⟨"script.py", [("x", .ty (.primitive .int))], []⟩] =
      some ⟨"script.py", [("x", .ty (.primitive .int))], []⟩ ∧
    ¬(scope_walk [⟨"script.py", [("x", .ty (.primitive .int))], []⟩] =
      spec_scope_walk ["typing.py"]
        [⟨"script.py", [("x", .ty (.primitive .int))], []⟩]) := by
  refine ⟨rfl, rfl, fun h => ?_⟩
  rw [show scope_walk [⟨"script.py", [("x", .ty (.primitive .int))], []⟩] =
      Option.none from rfl,
    show spec_scope_walk ["typing.py"]
        [⟨"script.py", [("x", .ty (.primitive .int))], []⟩] =
      some ⟨"script.py", [("x", .ty (.primitive .int))], []⟩ from rfl] at h
  exact Option.noConfusion h

/-- C5 amended: the walk takes the filename of the immediate caller as the
location of the construction machinery and skips the maximal prefix of
frames carrying that filename: when construction reaches the patched
constructor through a single-file library invoked from user code located in
a different file, the first frame past the library block is captured; when
every frame on the stack shares the filename of the immediate caller, as
with construction directly from user code in one file, nothing is
captured. -/
theorem c5_walk_behaviour :
    (∀ (f0 : Frame) (fs : List Frame) (g : Frame) (rest : List Frame),
      (∀ f ∈ fs, f.co_filename = f0.co_filename) →
      ¬(g.co_filename = f0.co_filename) →
      scope_walk (f0 :: fs ++ g :: rest) = some g) ∧
    (∀ (f0 : Frame) (fs : List Frame),
      (∀ f ∈ fs, f.co_filename = f0.co_filename) →
      scope_walk (f0 :: fs) = Option.none) := by
  constructor
  · intro f0 fs g rest hfs hg
    show skipSame f0.co_filename (f0 :: (fs ++ g :: rest)) = some g
    rw [skipSame, if_pos rfl, skipSame_all fs (g :: rest) hfs,
      skipSame, if_neg hg]
  · intro f0 fs hfs
    show skipSame f0.co_filename (f0 :: fs) = Option.none
    rw [skipSame, if_pos rfl,
      show fs = fs ++ ([] : List Frame) from (List.append_nil fs).symm,
      skipSame_all fs [] hfs]
    rfl

theorem c5_walk_behaviour_witness :
    scope_walk [⟨"typing.py", [], []⟩, ⟨"typing.py", [], []⟩,
        ⟨"user.py", [], []⟩] = some ⟨"user.py", [], []⟩ ∧
    scope_walk [⟨"script.py", [], []⟩, ⟨"script.py", [], []⟩] =
      Option.none :=
  ⟨c5_walk_behaviour.1 ⟨"typing.py", [], []⟩ [⟨"typing.py", [], []⟩]
      ⟨"user.py", [], []⟩ []
      (by intro f hf; simp at hf; rw [hf])
      (by intro h; exact absurd h (by decide)),
   c5_walk_behaviour.2 ⟨"script.py", [], []⟩ [⟨"script.py", [], []⟩]
      (by intro f hf; simp at hf; rw [hf])⟩

/-- C6 counterexample: a registered forward reference whose name is bound to
the Python value None in the local table of its captured scope, and absent
from the global table, makes check raise a host-level type error: a third
raising condition besides the two structural errors enumerated by the
claim, reached with the token registered. -/
theorem c6_counterexample :
    check_type [(0, ⟨"a.py", [("x", .pyNone)], []⟩)] 2 .null
      (.forwardRef 0 "x") = .raised .typeError ∧
    lookupReg [(0, ⟨"a.py", [("x", .pyNone)], []⟩)] 0 =
      some ⟨"a.py", [("x", .pyNone)], []⟩ ∧
    CheckError.typeError ≠ .unknownForwardReference 0 ∧
    CheckError.typeError ≠ .unresolvableName "x" :=
  ⟨rfl, rfl, by decide, by decide⟩

/-- C6 amended: when every captured frame of the registry binds names only
to resolvable type expressions and every forward reference of the checked
expression is registered and resolvable, check never raises: it returns a
boolean unless the recursion budget runs out; a raised structural error,
such as an unregistered token surfacing in a union member or list element,
propagates immediately out of the enclosing check instead of being turned
into false. -/
theorem c6_no_raise_and_propagation :
    (∀ (reg : Registry) (n : Nat) (t : TypeExpr) (v : Value),
      regWF reg = true → refsResolved reg t = true →
      (check_type reg n v t).isRaised = false) ∧
    (∀ (reg : Registry) (n : Nat) (v : Value) (A : TypeExpr)
        (ms : List TypeExpr) (e : CheckError),
      check_type reg n v A = .raised e →
      check_type reg (n + 1) v (.union (A :: ms)) = .raised e) ∧
    (∀ (reg : Registry) (n : Nat) (x : Value) (xs : List Value)
        (E : TypeExpr) (e : CheckError),
      check_type reg n x E = .raised e →
      check_type reg (n + 1) (.list (x :: xs)) (.listOf E) = .raised e) := by
  refine ⟨fun reg n t v hreg ht => check_type_no_raise hreg n t v ht,
    fun reg n v A ms e hA => ?_, fun reg n x xs E e hx => ?_⟩
  · rw [check_type_union]
    simp only [List.map_cons]
    rw [hA]
    rfl
  · rw [check_type_listOf_list]
    simp only [List.map_cons]
    rw [hx]
    rfl

theorem c6_no_raise_and_propagation_witness :
    (check_type [(0, ⟨"m.py", [], [("J", .ty (.primitive .int))]⟩)] 2 .null
        (.forwardRef 0 "J")).isRaised = false ∧
    check_type [] 2 (.int 1) (.union [.forwardRef 9 "z"]) =
      .raised (.unknownForwardReference 9) ∧
    check_type [] 2 (.list [.int 1]) (.listOf (.forwardRef 9 "z")) =
      .raised (.unknownForwardReference 9) :=
  ⟨c6_no_raise_and_propagation.1
      [(0, ⟨"m.py", [], [("J", .ty (.primitive .int))]⟩)] 2
      (.forwardRef 0 "J") .null rfl rfl,
   c6_no_raise_and_propagation.2.1 [] 1 (.int 1) (.forwardRef 9 "z") [] _ rfl,
   c6_no_raise_and_propagation.2.2 [] 1 (.int 1) [] (.forwardRef 9 "z") _ rfl⟩

/-- C7: union semantics over every member sequence: an empty union rejects
every value; when every member check returns a boolean, the union returns
true exactly when at least one member matches; evaluation proceeds in
declaration order with short-circuit on the first success: a matching head
ends the union with true and a non-matching head passes control to the
remaining member sequence; in particular a two-member union equals the
disjunction of the member checks. -/
theorem c7_union_semantics :
    (∀ (reg : Registry) (n : Nat) (v : Value),
      check_type reg (n + 1) v (.union []) = .ok false) ∧
    (∀ (reg : Registry) (n : Nat) (v : Value) (ms : List TypeExpr),
      (∀ m ∈ ms, ∃ b, check_type reg n v m = .ok b) →
      (check_type reg (n + 1) v (.union ms) = .ok true ↔
        ∃ m ∈ ms, check_type reg n v m = .ok true)) ∧
    (∀ (reg : Registry) (n : Nat) (v : Value) (m : TypeExpr)
        (ms : List TypeExpr),
      check_type reg n v m = .ok true →
      check_type reg (n + 1) v (.union (m :: ms)) = .ok true) ∧
    (∀ (reg : Registry) (n : Nat) (v : Value) (m : TypeExpr)
        (ms : List TypeExpr),
      check_type reg n v m = .ok false →
      check_type reg (n + 1) v (.union (m :: ms)) =
        check_type reg (n + 1) v (.union ms)) ∧
    (∀ (reg : Registry) (n : Nat) (v : Value) (A B : TypeExpr) (a b : Bool),
      check_type reg n v A = .ok a → check_type reg n v B = .ok b →
      check_type reg (n + 1) v (.union [A, B]) = .ok (a || b)) := by
  refine ⟨fun reg n v => rfl, fun reg n v ms h => ?_,
    fun reg n v m ms hm => ?_, fun reg n v m ms hm => ?_,
    fun reg n v A B a b hA hB => ?_⟩
  · rw [check_type_union]
    exact anyShort_map_ok_true_iff _ ms h
  · rw [check_type_union]
    simp only [List.map_cons]
    rw [hm]
    rfl
  · rw [check_type_union, check_type_union]
    simp only [List.map_cons]
    rw [hm]
    rfl
  · rw [check_type_union]
    simp only [List.map_cons, List.map_nil]
    rw [hA, hB]
    cases a <;> cases b <;> rfl

theorem c7_union_semantics_witness :
    check_type [] 2 (.int 1)
        (.union [.primitive .str, .primitive .bool, .primitive .int]) =
      .ok true ∧
    check_type [] 2 (.int 1) (.union [.primitive .str, .primitive .int]) =
      check_type [] 2 (.int 1) (.union [.primitive .int]) ∧
    check_type [] 2 (.int 1) (.union [.primitive .int, .forwardRef 9 "z"]) =
      .ok true ∧
    check_type [] 2 (.int 1) (.union [.primitive .str, .primitive .int]) =
      .ok (false || true) :=
  ⟨(c7_union_semantics.2.1 [] 1 (.int 1)
      [.primitive .str, .primitive .bool, .primitive .int]
      (by
        intro m hm
        rcases List.mem_cons.mp hm with rfl | hm2
        · exact ⟨false, rfl⟩
        rcases List.mem_cons.mp hm2 with rfl | hm3
        · exact ⟨false, rfl⟩
        rcases List.mem_cons.mp hm3 with rfl | hm4
        · exact ⟨true, rfl⟩
        · cases hm4)).mpr
      ⟨.primitive .int, by simp, rfl⟩,
   c7_union_semantics.2.2.2.1 [] 1 (.int 1) (.primitive .str)
      [.primitive .int] rfl,
   c7_union_semantics.2.2.1 [] 1 (.int 1) (.primitive .int)
      [.forwardRef 9 "z"] rfl,
   c7_union_semantics.2.2.2.2 [] 1 (.int 1) (.primitive .str)
      (.primitive .int) false true rfl rfl⟩

/-- C8: a value matches `ListOf(E)` exactly when it is a list value and
every element checks against `E`; the empty list trivially matches, and any
non-list value yields false. -/
theorem c8_listof_semantics :
    (∀ (reg : Registry) (n : Nat) (E : TypeExpr) (xs : List Value),
      check_type reg (n + 1) (.list xs) (.listOf E) = .ok true ↔
        ∀ x ∈ xs, check_type reg n x E = .ok true) ∧
    (∀ (reg : Registry) (n : Nat) (E : TypeExpr),
      check_type reg (n + 1) (.list []) (.listOf E) = .ok true) ∧
    (∀ (reg : Registry) (n : Nat) (E : TypeExpr) (v : Value),
      isinstance_list v = false →
      check_type reg (n + 1) v (.listOf E) = .ok false) := by
  refine ⟨fun reg n E xs => ?_, fun reg n E => rfl,
    fun reg n E v hv => check_type_listOf_not_list reg n v E hv⟩
  rw [check_type_listOf_list]
  exact allShort_map_ok_true_iff _ xs

theorem c8_listof_semantics_witness :
    check_type [] 2 (.int 7) (.listOf (.primitive .int)) = .ok false ∧
    check_type [] 1 (.int 1) (.primitive .int) = .ok true :=
  ⟨c8_listof_semantics.2.2 [] 1 (.primitive .int) (.int 7) rfl,
   (c8_listof_semantics.1 [] 1 (.primitive .int) [.int 1, .int 2]).mp rfl
     (.int 1) (by simp)⟩

/-- C9: checking any value against a forward reference whose token has no
entry in `forward_frames` raises `unknownForwardReference` and does not
return a boolean. -/
theorem c9_unregistered_raises (reg : Registry) (tok : Nat) (nm : String)
    (v : Value) (n : Nat) (h : lookupReg reg tok = Option.none) :
    check_type reg (n + 1) v (.forwardRef tok nm) =
      .raised (.unknownForwardReference tok) ∧
    ∀ b : Bool, ¬(check_type reg (n + 1) v (.forwardRef tok nm) = .ok b) := by
  have he := check_type_fr_unregistered reg n v tok nm h
  refine ⟨he, fun b hb => ?_⟩
  rw [he] at hb
  exact CheckResult.noConfusion hb

theorem c9_unregistered_raises_witness :
    check_type [] 3 (.int 1) (.forwardRef 42 "x") =
      .raised (.unknownForwardReference 42) :=
  (c9_unregistered_raises [] 42 "x" (.int 1) 2 rfl).1

/-- C10: a name bound to the Python value None in the global table of the
captured scope is treated as absent from that table: resolution falls
through to the local table, raising `unresolvableName` when the name is
absent there, so the reference is never resolved through the global
binding even though None is itself usable as a type annotation. -/
theorem c10_global_none_falls_through (reg : Registry) (tok : Nat)
    (f : Frame) (nm : String) (v : Value) (n : Nat)
    (hreg : lookupReg reg tok = some f)
    (hg : lookupTable f.f_globals nm = some .pyNone) :
    (∀ t, lookupTable f.f_locals nm = some (.ty t) →
      check_type reg (n + 1) v (.forwardRef tok nm) = check_type reg n v t) ∧
    (lookupTable f.f_locals nm = Option.none →
      check_type reg (n + 1) v (.forwardRef tok nm) =
        .raised (.unresolvableName nm)) := by
  constructor
  · intro t hl
    rw [check_type_fr_fallback reg n v tok nm hreg (Or.inr hg)]
    simp only [hl]
  · intro hl
    rw [check_type_fr_fallback reg n v tok nm hreg (Or.inr hg)]
    simp only [hl]

theorem c10_global_none_falls_through_witness :
    check_type [(0, ⟨"a.py", [("x", .ty (.primitive .str))],
        [("x", .pyNone)]⟩)] 2 (.str "hello") (.forwardRef 0 "x") =
      check_type [(0, ⟨"a.py", [("x", .ty (.primitive .str))],
        [("x", .pyNone)]⟩)] 1 (.str "hello") (.primitive .str) :=
  (c10_global_none_falls_through
      [(0, ⟨"a.py", [("x", .ty (.primitive .str))], [("x", .pyNone)]⟩)] 0
      ⟨"a.py", [("x", .ty (.primitive .str))], [("x", .pyNone)]⟩ "x"
      (.str "hello") 1 rfl rfl).1 (.primitive .str) rfl

end TypeCheck
